import Mathlib

/-
Verification of the deferred-renderer core against its specification.

Scalars of the Rust source are `f32`. The claims settled here depend on
the algebraic structure of the computations and on the IEEE special
values (infinities, NaN) that exact zero denominators produce; they do
not depend on rounding. We therefore model `f32` as an exact rational
number extended with `inf`, `neginf` and `nan`, with the IEEE rules for
the special values (`1/0 = +inf` for the positive zeros produced here,
`0 * inf = nan`, comparisons with `nan` are false). All finite
arithmetic is exact.
-/

/-- Model of an `f32` value: an exact rational or an IEEE special value. -/
inductive F where
  | fin : ℚ → F
  | inf : F
  | neginf : F
  | nan : F
deriving DecidableEq, Repr

/-- IEEE addition on the model scalars. -/
def F.add : F → F → F
  | .nan, _ => .nan
  | _, .nan => .nan
  | .fin a, .fin b => .fin (a + b)
  | .fin _, .inf => .inf
  | .fin _, .neginf => .neginf
  | .inf, .fin _ => .inf
  | .inf, .inf => .inf
  | .inf, .neginf => .nan
  | .neginf, .fin _ => .neginf
  | .neginf, .inf => .nan
  | .neginf, .neginf => .neginf

/-- IEEE negation on the model scalars. -/
def F.neg : F → F
  | .fin a => .fin (-a)
  | .inf => .neginf
  | .neginf => .inf
  | .nan => .nan

/-- IEEE subtraction on the model scalars. -/
def F.sub (a b : F) : F := F.add a (F.neg b)

/-- IEEE multiplication on the model scalars. -/
def F.mul : F → F → F
  | .nan, _ => .nan
  | _, .nan => .nan
  | .fin a, .fin b => .fin (a * b)
  | .fin a, .inf => if 0 < a then .inf else if a < 0 then .neginf else .nan
  | .fin a, .neginf => if 0 < a then .neginf else if a < 0 then .inf else .nan
  | .inf, .fin b => if 0 < b then .inf else if b < 0 then .neginf else .nan
  | .neginf, .fin b => if 0 < b then .neginf else if b < 0 then .inf else .nan
  | .inf, .inf => .inf
  | .inf, .neginf => .neginf
  | .neginf, .inf => .neginf
  | .neginf, .neginf => .inf

/-- IEEE division on the model scalars. The zeros produced by the source
(`x - x`, integer casts) are positive zeros, so `a / 0` is `+inf` for
`a > 0` and `-inf` for `a < 0`; `0 / 0` is `nan`. -/
def F.div : F → F → F
  | .nan, _ => .nan
  | _, .nan => .nan
  | .fin a, .fin b =>
    if b = 0 then
      if a = 0 then .nan else if 0 < a then .inf else .neginf
    else .fin (a / b)
  | .fin _, .inf => .fin 0
  | .fin _, .neginf => .fin 0
  | .inf, .fin b => if b < 0 then .neginf else .inf
  | .neginf, .fin b => if b < 0 then .inf else .neginf
  | .inf, .inf => .nan
  | .inf, .neginf => .nan
  | .neginf, .inf => .nan
  | .neginf, .neginf => .nan

/-- IEEE strict comparison; false whenever `nan` is involved. -/
def F.blt : F → F → Bool
  | .nan, _ => false
  | _, .nan => false
  | .fin a, .fin b => decide (a < b)
  | .fin _, .inf => true
  | .fin _, .neginf => false
  | .inf, _ => false
  | .neginf, .inf => true
  | .neginf, .fin _ => true
  | .neginf, .neginf => false

/-- IEEE non-strict comparison; false whenever `nan` is involved. -/
def F.ble : F → F → Bool
  | .nan, _ => false
  | _, .nan => false
  | .fin a, .fin b => decide (a ≤ b)
  | .fin _, .inf => true
  | .fin _, .neginf => false
  | .inf, .inf => true
  | .inf, _ => false
  | .neginf, _ => true

instance : Add F := ⟨F.add⟩
instance : Sub F := ⟨F.sub⟩
instance : Neg F := ⟨F.neg⟩
instance : Mul F := ⟨F.mul⟩
instance : Div F := ⟨F.div⟩

instance (n : Nat) : OfNat F n := ⟨F.fin n⟩

/-- A 3-component vector of model scalars (`cgmath::Vector3<f32>`). -/
structure V3 where
  x : F
  y : F
  z : F
deriving DecidableEq, Repr

/-- A 2-component vector of model scalars (`cgmath::Vector2<f32>`). -/
structure V2 where
  x : F
  y : F
deriving DecidableEq, Repr

/-- Componentwise vector addition. -/
def V3.add (a b : V3) : V3 := ⟨a.x + b.x, a.y + b.y, a.z + b.z⟩

/-- Componentwise vector subtraction. -/
def V3.sub (a b : V3) : V3 := ⟨a.x - b.x, a.y - b.y, a.z - b.z⟩

/-- Vector times scalar, as in `cgmath` (`v * s`). -/
def V3.smul (a : V3) (s : F) : V3 := ⟨a.x * s, a.y * s, a.z * s⟩

/-- Componentwise subtraction of 2-vectors. -/
def V2.sub (a b : V2) : V2 := ⟨a.x - b.x, a.y - b.y⟩

/-- The zero vector. -/
def zeroV3 : V3 := ⟨0, 0, 0⟩

/-- The all-NaN vector. -/
def nanV3 : V3 := ⟨F.nan, F.nan, F.nan⟩

/-
Mesh data model, from `src/mesh.rs`.
-/

/-- Model of `mesh::Vertex` (`src/mesh.rs` lines 6-14). -/
structure Vertex where
  position : V3
  normal : V3
  tex_coord : V2
  tangent : V3
  bitangent : V3
deriving DecidableEq, Repr

instance : Inhabited Vertex :=
  ⟨{ position := zeroV3, normal := zeroV3, tex_coord := ⟨0, 0⟩,
     tangent := zeroV3, bitangent := zeroV3 }⟩

/-- Model of `Mesh<Vertex>` (`src/mesh.rs` lines 29-33); `indices` holds the
`u16` index values as naturals. -/
structure Mesh where
  vertices : List Vertex
  indices : List Nat
deriving DecidableEq, Repr

/-- Replace the element at `i` by `f` applied to it; out-of-range indices
leave the list unchanged (every use below is guarded to be in range,
matching the Rust indexing that would otherwise panic). -/
def updateAt {α : Type} (vs : List α) (i : Nat) (f : α → α) : List α :=
  match vs[i]? with
  | some v => vs.set i (f v)
  | none => vs

/-- The per-triangle tangent and bitangent of `Mesh::update_tangents`
(`src/mesh.rs` lines 70-97): edge deltas, UV deltas, `r` the reciprocal
of the UV determinant, tangent `(dp1*duv2.y - dp2*duv1.y) * r` and
bitangent `(dp2*duv1.x - dp1*duv2.x) * -r`. -/
def triTangentBitangent (v0 v1 v2 : Vertex) : V3 × V3 :=
  let delta_pos1 := V3.sub v1.position v0.position
  let delta_pos2 := V3.sub v2.position v0.position
  let delta_uv1 := V2.sub v1.tex_coord v0.tex_coord
  let delta_uv2 := V2.sub v2.tex_coord v0.tex_coord
  let r := F.div 1 (delta_uv1.x * delta_uv2.y - delta_uv1.y * delta_uv2.x)
  let tangent := V3.smul (V3.sub (V3.smul delta_pos1 delta_uv2.y) (V3.smul delta_pos2 delta_uv1.y)) r
  let bitangent := V3.smul (V3.sub (V3.smul delta_pos2 delta_uv1.x) (V3.smul delta_pos1 delta_uv2.x)) (-r)
  (tangent, bitangent)

/-- Add a tangent contribution into a vertex, as in
`self.vertices[i].tangent = (tangent + old).into()`. -/
def accTan (t : V3) (v : Vertex) : Vertex := { v with tangent := V3.add t v.tangent }

/-- Add a bitangent contribution into a vertex, as in
`self.vertices[i].bitangent = (bitangent + old).into()`. -/
def accBitan (b : V3) (v : Vertex) : Vertex := { v with bitangent := V3.add b v.bitangent }

/-- Bump an incidence counter, as in `triangles_included[i] += 1`. -/
def bump (c : Nat) : Nat := c + 1

/-- One triangle's six in-place vertex updates (`src/mesh.rs` lines
100-111): tangent into slots 0,1,2, then bitangent into slots 0,1,2. -/
def triApply (tb : V3 × V3) (i0 i1 i2 : Nat) (vs : List Vertex) : List Vertex :=
  updateAt (updateAt (updateAt
    (updateAt (updateAt (updateAt vs i0 (accTan tb.1)) i1 (accTan tb.1)) i2 (accTan tb.1))
    i0 (accBitan tb.2)) i1 (accBitan tb.2)) i2 (accBitan tb.2)

/-- One triangle's three counter bumps (`src/mesh.rs` lines 114-116). -/
def bump3 (i0 i1 i2 : Nat) (counts : List Nat) : List Nat :=
  updateAt (updateAt (updateAt counts i0 bump) i1 bump) i2 bump

/-- The accumulation loop of `Mesh::update_tangents` (`src/mesh.rs` lines
65-117): walk the index buffer three entries at a time, add the
triangle's tangent/bitangent into each of its three vertices (in the
source's slot order) and bump the per-vertex incidence counter. `none`
models the panics of the source: an out-of-range index, or a trailing
chunk of fewer than three indices. -/
def accumChunks : List Nat → List Vertex → List Nat → Option (List Vertex × List Nat)
  | [], vs, counts => some (vs, counts)
  | i0 :: i1 :: i2 :: rest, vs, counts =>
    match vs[i0]?, vs[i1]?, vs[i2]? with
    | some v0, some v1, some v2 =>
      accumChunks rest (triApply (triTangentBitangent v0 v1 v2) i0 i1 i2 vs)
        (bump3 i0 i1 i2 counts)
    | _, _, _ => none
  | _, _, _ => none

/-- The averaging pass of `Mesh::update_tangents` (`src/mesh.rs` lines
120-125): each vertex's tangent and bitangent are multiplied by
`1.0 / n` where `n` is its incidence count (the counter list always has
the same length as the vertex list). -/
def averageVertex (v : Vertex) (n : Nat) : Vertex :=
  let denom := F.div 1 (F.fin n)
  { v with tangent := V3.smul v.tangent denom, bitangent := V3.smul v.bitangent denom }

/-- Model of `Mesh::update_tangents` (`src/mesh.rs` lines 62-126). -/
def Mesh.update_tangents (m : Mesh) : Option Mesh :=
  match accumChunks m.indices m.vertices (List.replicate m.vertices.length 0) with
  | some r => some { m with vertices := List.zipWith averageVertex r.1 r.2 }
  | none => none

/-
Specification-side definitions for claim C1, written from the
specification text: the per-triangle `T` and `B`, the triangle list, the
incidence count of a vertex, and the arithmetic mean of the per-triangle
contributions.
-/

/-- The vertex at index `i`, with a default for out-of-range lookups
(the claims only use in-range indices). -/
def vAt (vs : List Vertex) (i : Nat) : Vertex := (vs[i]?).getD default

/-- The triangles of an index buffer: consecutive triples. `none` when
the length is not a multiple of three. -/
def chunks3 : List Nat → Option (List (Nat × Nat × Nat))
  | [] => some []
  | a :: b :: c :: rest => (chunks3 rest).map (fun l => (a, b, c) :: l)
  | _ => none

/-- Spec-side tangent contribution of a triangle:
`T = (dP1 * dUV2.y - dP2 * dUV1.y) * r` with
`r = 1 / (dUV1.x * dUV2.y - dUV1.y * dUV2.x)`. -/
def specTriT (vs : List Vertex) (t : Nat × Nat × Nat) : V3 :=
  let v0 := vAt vs t.1
  let v1 := vAt vs t.2.1
  let v2 := vAt vs t.2.2
  let dP1 := V3.sub v1.position v0.position
  let dP2 := V3.sub v2.position v0.position
  let dUV1 := V2.sub v1.tex_coord v0.tex_coord
  let dUV2 := V2.sub v2.tex_coord v0.tex_coord
  let r := F.div 1 (dUV1.x * dUV2.y - dUV1.y * dUV2.x)
  V3.smul (V3.sub (V3.smul dP1 dUV2.y) (V3.smul dP2 dUV1.y)) r

/-- Spec-side bitangent contribution of a triangle:
`B = (dP2 * dUV1.x - dP1 * dUV2.x) * (-r)`. -/
def specTriB (vs : List Vertex) (t : Nat × Nat × Nat) : V3 :=
  let v0 := vAt vs t.1
  let v1 := vAt vs t.2.1
  let v2 := vAt vs t.2.2
  let dP1 := V3.sub v1.position v0.position
  let dP2 := V3.sub v2.position v0.position
  let dUV1 := V2.sub v1.tex_coord v0.tex_coord
  let dUV2 := V2.sub v2.tex_coord v0.tex_coord
  let r := F.div 1 (dUV1.x * dUV2.y - dUV1.y * dUV2.x)
  V3.smul (V3.sub (V3.smul dP2 dUV1.x) (V3.smul dP1 dUV2.x)) (-r)

/-- How many of a triangle's three slots name vertex `j` (a degenerate
triangle can name the same vertex more than once, and then contributes
once per slot, as in the source). -/
def slotsOf (t : Nat × Nat × Nat) (j : Nat) : Nat :=
  (if t.1 = j then 1 else 0) + (if t.2.1 = j then 1 else 0) + (if t.2.2 = j then 1 else 0)

/-- The incidence count of vertex `j`: its slots summed over all triangles. -/
def incidence (tris : List (Nat × Nat × Nat)) (j : Nat) : Nat :=
  (tris.map (fun t => slotsOf t j)).sum

/-- One triangle's additions into vertex `j`'s running tangent, one per
slot naming `j`, in slot order. -/
def triStep (con : V3) (t : Nat × Nat × Nat) (j : Nat) (acc : V3) : V3 :=
  let a1 := if t.1 = j then V3.add con acc else acc
  let a2 := if t.2.1 = j then V3.add con a1 else a1
  if t.2.2 = j then V3.add con a2 else a2

/-- The accumulated sum of tangent contributions into vertex `j` over a
triangle list, starting from `init`. -/
def sumT (vs : List Vertex) (tris : List (Nat × Nat × Nat)) (j : Nat) (init : V3) : V3 :=
  tris.foldl (fun acc t => triStep (specTriT vs t) t j acc) init

/-- The accumulated sum of bitangent contributions into vertex `j`. -/
def sumB (vs : List Vertex) (tris : List (Nat × Nat × Nat)) (j : Nat) (init : V3) : V3 :=
  tris.foldl (fun acc t => triStep (specTriB vs t) t j acc) init

/-- Componentwise division of a vector by a natural count. -/
def V3.divNat (a : V3) (n : Nat) : V3 :=
  ⟨F.div a.x (F.fin n), F.div a.y (F.fin n), F.div a.z (F.fin n)⟩

/-- Spec-side arithmetic mean of the tangent contributions at vertex `j`. -/
def specMeanT (vs : List Vertex) (tris : List (Nat × Nat × Nat)) (j : Nat) : V3 :=
  V3.divNat (sumT vs tris j zeroV3) (incidence tris j)

/-- Spec-side arithmetic mean of the bitangent contributions at vertex `j`. -/
def specMeanB (vs : List Vertex) (tris : List (Nat × Nat × Nat)) (j : Nat) : V3 :=
  V3.divNat (sumB vs tris j zeroV3) (incidence tris j)

/-- A vertex with all fields zero, as produced by `Vertex::raw`. -/
def zeroVertex : Vertex :=
  { position := zeroV3, normal := zeroV3, tex_coord := ⟨0, 0⟩,
    tangent := zeroV3, bitangent := zeroV3 }

/-- A mesh with one vertex referenced by no triangle. -/
def loneMesh : Mesh := { vertices := [zeroVertex], indices := [] }

/-- The result of `update_tangents` on `loneMesh`. -/
def loneOut : Mesh := (loneMesh.update_tangents).getD loneMesh

/-- A vertex of the witness quad, from its position and UV. -/
def mkVertex (px py pz u v : ℚ) : Vertex :=
  { position := ⟨F.fin px, F.fin py, F.fin pz⟩, normal := zeroV3,
    tex_coord := ⟨F.fin u, F.fin v⟩, tangent := zeroV3, bitangent := zeroV3 }

/-- A unit quad split into two triangles with axis-aligned UVs. -/
def quadMesh : Mesh :=
  { vertices := [mkVertex 0 0 0 0 0, mkVertex 1 0 0 1 0, mkVertex 1 1 0 1 1, mkVertex 0 1 0 0 1],
    indices := [0, 1, 2, 0, 2, 3] }

/-- The result of `update_tangents` on `quadMesh`. -/
def quadOut : Mesh := (quadMesh.update_tangents).getD quadMesh

/-
UI widget data model, from `src/ui/widget.rs` (the text/font fields of
the Rust `Slider` are omitted: they do not affect the numeric state).
-/

/-- Model of `epaint::Rect` (axis-aligned, min/max corners). -/
structure Rect where
  min_x : F
  min_y : F
  max_x : F
  max_y : F
deriving DecidableEq, Repr

/-- `epaint::Rect::ZERO`. -/
def Rect.zero : Rect := ⟨0, 0, 0, 0⟩

/-- `epaint::Rect::contains`: inclusive on all four edges. -/
def Rect.contains (r : Rect) (x y : F) : Bool :=
  F.ble r.min_x x && F.ble x r.max_x && F.ble r.min_y y && F.ble y r.max_y

/-- `epaint::Rect::width`. -/
def Rect.width (r : Rect) : F := r.max_x - r.min_x

/-- Rust `f32::clamp` (`v.clamp(lo, hi)`): the source asserts `lo <= hi`
(panicking otherwise — the theorems below assume it), and `nan` passes
through unchanged. -/
def F.clamp (v lo hi : F) : F :=
  let a := if F.blt v lo then lo else v
  if F.blt hi a then hi else a

/-- Model of `ui::widget::Slider` (`src/ui/widget.rs` lines 108-119). -/
structure Slider where
  bounds : Rect
  value : F
  min : F
  max : F
  slide_bounds : Rect
deriving DecidableEq, Repr

/-- `Slider::new` (`src/ui/widget.rs` lines 122-138): value 0.5,
range [0, 1], both rectangles `Rect::ZERO`. -/
def Slider.new : Slider :=
  { bounds := Rect.zero, value := F.fin (1 / 2), min := 0, max := 1,
    slide_bounds := Rect.zero }

/-- `Slider::with_min_max` (`src/ui/widget.rs` lines 140-145). -/
def Slider.with_min_max (s : Slider) (mn mx : F) : Slider :=
  { s with min := mn, max := mx, value := F.clamp s.value mn mx }

/-- `Slider::set_value` (`src/ui/widget.rs` lines 156-158). -/
def Slider.set_value (s : Slider) (v : F) : Slider :=
  { s with value := F.clamp v s.min s.max }

/-- `Slider::with_value` (`src/ui/widget.rs` lines 147-150). -/
def Slider.with_value (s : Slider) (v : F) : Slider := s.set_value v

/-- `Slider::update_value` (`src/ui/widget.rs` lines 273-276):
`t = (x - slide_bounds.min.x) / slide_bounds.width()`;
`value = min + (max - min) * t`. -/
def Slider.update_value (s : Slider) (x : F) : Slider :=
  let t := (x - s.slide_bounds.min_x) / s.slide_bounds.width
  { s with value := s.min + (s.max - s.min) * t }

/-- `Slider::on_mouse_down` (`src/ui/widget.rs` lines 248-255): claims
the pointer (returns true) iff the point is inside `slide_bounds`, and
then also moves the value. -/
def Slider.on_mouse_down (s : Slider) (x y : F) : Slider × Bool :=
  if s.slide_bounds.contains x y then (s.update_value x, true) else (s, false)

/-- `Slider::on_mouse_up` (`src/ui/widget.rs` line 257): a no-op. -/
def Slider.on_mouse_up (s : Slider) : Slider := s

/-- `Slider::on_mouse_dragged` (`src/ui/widget.rs` lines 259-271). -/
def Slider.on_mouse_dragged (s : Slider) (x _y : F) : Slider :=
  if F.blt x s.slide_bounds.min_x then { s with value := s.min }
  else if F.blt s.slide_bounds.max_x x then { s with value := s.max }
  else s.update_value x

/-- `Slider::on_mouse_moved` (`src/ui/widget.rs` line 278): a no-op. -/
def Slider.on_mouse_moved (s : Slider) (_x _y : F) : Slider := s

/-- The slider invariant claimed by the specification. -/
def Slider.inv (s : Slider) : Bool := F.ble s.min s.value && F.ble s.value s.max

/-
Application state model, from `src/app.rs` and `src/texture.rs`. GPU
resources are modelled by the data the claims are about: each texture's
dimensions and format. Buffers, bind groups, pipelines, shader modules
and the 2-D overlay renderer carry no state the claims mention and are
omitted.
-/

/-- The texture formats used by the renderer. -/
inductive TextureFormat where
  | Bgra8UnormSrgb
  | Rgba8UnormSrgb
  | Rgba16Float
  | Depth32Float
  | Rgba8Unorm
deriving DecidableEq, Repr

/-- Model of a created `wgpu` texture: its size and format. -/
structure Texture where
  width : Nat
  height : Nat
  format : TextureFormat
deriving DecidableEq, Repr

/-- The surface configuration (its current size). -/
structure SurfaceConfig where
  width : Nat
  height : Nat
deriving DecidableEq, Repr

/-- `texture::DEPTH_FORMAT` (`src/texture.rs` line 79). -/
def DEPTH_FORMAT : TextureFormat := TextureFormat.Depth32Float

/-- `texture::create_depth_texture` (`src/texture.rs` lines 81-119). -/
def create_depth_texture (width height : Nat) : Texture :=
  { width := width, height := height, format := DEPTH_FORMAT }

/-- `texture::create_fullscreen_texture` (`src/texture.rs` lines
121-164): sized to the surface configuration, with the given format. -/
def create_fullscreen_texture (sc : SurfaceConfig) (format : TextureFormat) : Texture :=
  { width := sc.width, height := sc.height, format := format }

/-- `app::RenderSource` (`src/app.rs` lines 17-22). -/
inductive RenderSource where
  | Final
  | Albedo
  | Position
  | Normal
deriving DecidableEq, Repr

/-- The mouse buttons the app distinguishes. -/
inductive MouseButton where
  | Left
  | Right
  | Middle
deriving DecidableEq, Repr

/-- The key codes `App::on_key_pressed` handles, plus a catch-all. -/
inductive KeyCode where
  | KeyR
  | Digit1
  | Digit2
  | Digit3
  | Digit4
  | KeyL
  | ArrowLeft
  | ArrowRight
  | ArrowUp
  | ArrowDown
  | PageUp
  | PageDown
  | Other
deriving DecidableEq, Repr

/-- Model of the `App` state (`src/app.rs` lines 24-65), restricted to
the fields the claims are about. The three `SliderId` keys are indices
0, 1, 2 into the slider list (insertion order), and
`lights.point_light.position` is `light_position`. -/
structure App where
  depth_texture : Texture
  albedo_g_texture : Texture
  position_g_texture : Texture
  normal_g_texture : Texture
  rotating : Option (F × F)
  last_mouse_position : F × F
  yaw : F
  pitch : F
  distance : F
  render_source : RenderSource
  light_angle : Option F
  light_position : V3
  sliders : List Slider
  active_slider : Option Nat
deriving DecidableEq, Repr

/-- The slot-map key of the light-x slider (first inserted). -/
def light_x_id : Nat := 0

/-- The slot-map key of the light-y slider (second inserted). -/
def light_y_id : Nat := 1

/-- The slot-map key of the light-z slider (third inserted). -/
def light_z_id : Nat := 2

/-- `App::new` (`src/app.rs` lines 68-305), restricted to the modelled
fields: G-buffer targets at the surface size (albedo `Bgra8UnormSrgb`,
position/normal `Rgba16Float`), camera at yaw 90 deg, pitch 0,
distance 10, light at [3,3,3] and not orbiting, three sliders with
range [-5, 5], nothing captured. -/
def App.new (sc : SurfaceConfig) : App :=
  { depth_texture := create_depth_texture sc.width sc.height,
    albedo_g_texture := create_fullscreen_texture sc TextureFormat.Bgra8UnormSrgb,
    position_g_texture := create_fullscreen_texture sc TextureFormat.Rgba16Float,
    normal_g_texture := create_fullscreen_texture sc TextureFormat.Rgba16Float,
    rotating := none,
    last_mouse_position := (0, 0),
    yaw := F.fin 90,
    pitch := 0,
    distance := F.fin 10,
    render_source := RenderSource.Final,
    light_angle := none,
    light_position := ⟨F.fin 3, F.fin 3, F.fin 3⟩,
    sliders := [Slider.new.with_min_max (F.fin (-5)) (F.fin 5),
                Slider.new.with_min_max (F.fin (-5)) (F.fin 5),
                Slider.new.with_min_max (F.fin (-5)) (F.fin 5)],
    active_slider := none }

/-- The slider re-layout loop of `App::resize` (`src/app.rs` lines
340-348): each slider gets a 300 by 40 rectangle 10 pixels from the
right edge, stacked from the top. -/
def layoutSliders (w : Nat) (top : F) : List Slider → List Slider
  | [] => []
  | sl :: rest =>
    { sl with bounds := { min_x := F.fin w - F.fin 10 - F.fin 300, min_y := top,
                          max_x := F.fin w - F.fin 10, max_y := top + F.fin 40 } }
      :: layoutSliders w (top + F.fin 40) rest

/-- `App::resize` (`src/app.rs` lines 307-349): recreates the four
G-buffer targets at the surface size (albedo now `Rgba8UnormSrgb`) and
re-lays out the sliders. -/
def App.resize (s : App) (sc : SurfaceConfig) : App :=
  { s with depth_texture := create_depth_texture sc.width sc.height,
           albedo_g_texture := create_fullscreen_texture sc TextureFormat.Rgba8UnormSrgb,
           position_g_texture := create_fullscreen_texture sc TextureFormat.Rgba16Float,
           normal_g_texture := create_fullscreen_texture sc TextureFormat.Rgba16Float,
           sliders := layoutSliders sc.width 0 s.sliders }

/-- The slider scan of `App::on_mouse_down` (`src/app.rs` lines
352-362): the first slider whose bounds contain the pointer AND whose
own `on_mouse_down` returns true is updated and returned with its
index; sliders that do not claim are left untouched. -/
def claimScan (x y : F) : List Slider → Option (Nat × Slider)
  | [] => none
  | sl :: rest =>
    if sl.bounds.contains x y && (sl.on_mouse_down x y).2 then
      some (0, (sl.on_mouse_down x y).1)
    else
      match claimScan x y rest with
      | some (k, sl2) => some (k + 1, sl2)
      | none => none

/-- `App::on_mouse_down` (`src/app.rs` lines 351-367): if a slider
claims the event at the last mouse position it becomes the captured
(active) slider and camera rotation is NOT started; otherwise a left
press starts camera rotation from the last mouse position. -/
def App.on_mouse_down (s : App) (button : MouseButton) : App :=
  match claimScan s.last_mouse_position.1 s.last_mouse_position.2 s.sliders with
  | some isl =>
    { s with sliders := s.sliders.set isl.1 isl.2, active_slider := some isl.1 }
  | none =>
    if button = MouseButton.Left then { s with rotating := some s.last_mouse_position }
    else s

/-- `App::on_mouse_up` (`src/app.rs` lines 369-383): a captured slider
receives the release and capture is cleared (and the function returns);
otherwise capture is cleared and a left release ends camera rotation. -/
def App.on_mouse_up (s : App) (button : MouseButton) : App :=
  match s.active_slider with
  | some i =>
    match s.sliders[i]? with
    | some sl =>
      { s with sliders := s.sliders.set i sl.on_mouse_up, active_slider := none }
    | none =>
      if button = MouseButton.Left then { s with active_slider := none, rotating := none }
      else { s with active_slider := none }
  | none =>
    if button = MouseButton.Left then { s with active_slider := none, rotating := none }
    else { s with active_slider := none }

/-- `App::on_mouse_wheel` (`src/app.rs` lines 385-387):
`distance -= delta * (distance * 0.1)`. -/
def App.on_mouse_wheel (s : App) (delta : F) : App :=
  { s with distance := s.distance - delta * (s.distance * F.fin (1 / 10)) }

/-- The hover scan of `App::on_mouse_moved` (`src/app.rs` lines
398-403): the first slider whose bounds contain the pointer receives
`on_mouse_moved` (a no-op) and stops the scan. -/
def findHover (x y : F) : List Slider → Option (Nat × Slider)
  | [] => none
  | sl :: rest =>
    if sl.bounds.contains x y then some (0, sl.on_mouse_moved x y)
    else
      match findHover x y rest with
      | some (k, sl2) => some (k + 1, sl2)
      | none => none

/-- The camera-rotation tail of `App::on_mouse_moved` (`src/app.rs`
lines 406-413): while rotating, add the delta from the stored position
to yaw/pitch and store the new position. -/
def rotateStep (s : App) (x y : F) : App :=
  match s.rotating with
  | some p =>
    { s with yaw := s.yaw + (x - p.1), pitch := s.pitch + (y - p.2),
             rotating := some (x, y) }
  | none => s

/-- `App::on_mouse_moved` (`src/app.rs` lines 389-414): record the
position; if a slider is captured, forward the move as a drag to it
only (falling through to rotation if the id is stale); else forward a
hover to the slider under the pointer; else rotate the camera if a
rotation drag is active. -/
def App.on_mouse_moved (s : App) (x y : F) : App :=
  let s1 := { s with last_mouse_position := (x, y) }
  match s1.active_slider with
  | some i =>
    match s1.sliders[i]? with
    | some sl => { s1 with sliders := s1.sliders.set i (sl.on_mouse_dragged x y) }
    | none => rotateStep s1 x y
  | none =>
    match findHover x y s1.sliders with
    | some isl => { s1 with sliders := s1.sliders.set isl.1 isl.2 }
    | none => rotateStep s1 x y

/-- `App::on_key_pressed` (`src/app.rs` lines 416-470). -/
def App.on_key_pressed (s : App) (key : KeyCode) : App :=
  match key with
  | KeyCode.KeyR => { s with pitch := 0, yaw := 0 }
  | KeyCode.Digit1 => { s with render_source := RenderSource.Final }
  | KeyCode.Digit2 => { s with render_source := RenderSource.Albedo }
  | KeyCode.Digit3 => { s with render_source := RenderSource.Position }
  | KeyCode.Digit4 => { s with render_source := RenderSource.Normal }
  | KeyCode.KeyL =>
    if s.light_angle.isNone then { s with light_angle := some 0 }
    else { s with light_angle := none }
  | KeyCode.ArrowLeft =>
    { s with light_position := { s.light_position with x := s.light_position.x - F.fin (1 / 2) } }
  | KeyCode.ArrowRight =>
    { s with light_position := { s.light_position with x := s.light_position.x + F.fin (1 / 2) } }
  | KeyCode.ArrowUp =>
    { s with light_position := { s.light_position with z := s.light_position.z + F.fin (1 / 2) } }
  | KeyCode.ArrowDown =>
    { s with light_position := { s.light_position with z := s.light_position.z - F.fin (1 / 2) } }
  | KeyCode.PageUp =>
    { s with light_position := { s.light_position with y := s.light_position.y + F.fin (1 / 2) } }
  | KeyCode.PageDown =>
    { s with light_position := { s.light_position with y := s.light_position.y - F.fin (1 / 2) } }
  | KeyCode.Other => s

/-- The light-update step at the top of `App::render` (`src/app.rs`
lines 500-514). `cosD` and `sinD` are the (degree-argument) cosine and
sine, passed in as parameters since the claims do not depend on their
values; `last_frame_secs` is the elapsed frame time in seconds. While
orbiting, the angle advances by `1.0 * time_delta` and the position is
derived from it (the sine goes into the z slot); while manual, the
position is the three sliders' current values (the `unwrap` of the
always-present slider ids is modelled by `getD`). -/
def App.render_light_update (s : App) (cosD sinD : F → F) (last_frame_secs : F) : App :=
  let time_delta := F.div 1 (F.div (F.div 1 (F.fin 60)) last_frame_secs)
  match s.light_angle with
  | some a =>
    let a2 := a + F.fin 1 * time_delta
    let x := cosD a2 * F.fin 3
    let y := sinD a2 * F.fin 3
    { s with light_angle := some a2, light_position := ⟨x, F.fin 1, y⟩ }
  | none =>
    let x := ((s.sliders[light_x_id]?).getD Slider.new).value
    let y := ((s.sliders[light_y_id]?).getD Slider.new).value
    let z := ((s.sliders[light_z_id]?).getD Slider.new).value
    { s with light_position := ⟨x, y, z⟩ }

/-- A surface configuration for the concrete witnesses. -/
def sc0 : SurfaceConfig := { width := 800, height := 600 }

/-- A camera-drag witness state: the freshly created app with a camera
rotation drag in progress from the origin. -/
def c7state : App := { App.new sc0 with rotating := some (F.fin 0, F.fin 0) }

/-- The captured-slider witness value: the first slider of the fresh
app after it claims a pointer-down at the origin. -/
def c4slider : Slider :=
  ((Slider.new.with_min_max (F.fin (-5)) (F.fin 5)).on_mouse_down 0 0).1

/-- A slider with a laid-out (positive-width) track, for the C6
witness: range [0, 10], track x from 0 to 100. -/
def c6slider : Slider :=
  { bounds := Rect.zero, value := F.fin 0, min := F.fin 0, max := F.fin 10,
    slide_bounds := { min_x := F.fin 0, min_y := F.fin 0,
                      max_x := F.fin 100, max_y := F.fin 10 } }

/-- The x deltas of a move sequence, each relative to the previous
position (starting from the drag-start position). -/
def xDeltas : F × F → List (F × F) → List F
  | _, [] => []
  | p0, p :: rest => (p.1 - p0.1) :: xDeltas p rest

/-- The y deltas of a move sequence, each relative to the previous
position (starting from the drag-start position). -/
def yDeltas : F × F → List (F × F) → List F
  | _, [] => []
  | p0, p :: rest => (p.2 - p0.2) :: yDeltas p rest

/-- The sum of a list of scalars. -/
def sumF (l : List F) : F := l.foldl F.add (F.fin 0)

/-- The geometric data of a vertex (the fields the accumulation reads). -/
def geom (v : Vertex) : V3 × V2 := (v.position, v.tex_coord)

theorem updateAt_getElem {α : Type} (vs : List α) (i : Nat) (f : α → α) (j : Nat) :
    (updateAt vs i f)[j]? = (vs[j]?).map (fun v => if i = j then f v else v) := by
  unfold updateAt
  cases hvi : vs[i]? with
  | none =>
    by_cases hij : i = j
    · subst hij
      rw [hvi]
      rfl
    · simp only [hij, if_false]
      cases vs[j]? <;> rfl
  | some v =>
    rw [List.getElem?_set]
    by_cases hij : i = j
    · subst hij
      have hlt : i < vs.length := by
        by_contra hge
        rw [List.getElem?_eq_none (Nat.le_of_not_lt hge)] at hvi
        exact Option.noConfusion hvi
      rw [hvi]
      simp [hlt]
    · simp only [hij, if_false]
      cases vs[j]? <;> simp

theorem updateAt_length {α : Type} (vs : List α) (i : Nat) (f : α → α) :
    (updateAt vs i f).length = vs.length := by
  unfold updateAt
  cases vs[i]? with
  | none => rfl
  | some v => exact List.length_set vs i (f v)

theorem set_self {α : Type} (vs : List α) (i : Nat) (a : α) (h : vs[i]? = some a) :
    vs.set i a = vs := by
  induction vs generalizing i with
  | nil => rfl
  | cons x xs ih =>
    cases i with
    | zero =>
      simp only [List.getElem?_cons_zero, Option.some.injEq] at h
      simp [h]
    | succ k =>
      simp only [List.getElem?_cons_succ] at h
      simp [ih k h]

theorem updateAt_map_geom (vs : List Vertex) (i : Nat) (f : Vertex → Vertex)
    (hf : ∀ v, geom (f v) = geom v) :
    (updateAt vs i f).map geom = vs.map geom := by
  unfold updateAt
  cases hvi : vs[i]? with
  | none => rfl
  | some v =>
    rw [List.map_set, hf v]
    apply set_self
    rw [List.getElem?_map, hvi, Option.map_some']

theorem geom_vAt_congr (vs ws : List Vertex) (h : vs.map geom = ws.map geom) (i : Nat) :
    geom (vAt vs i) = geom (vAt ws i) := by
  have h2 : Option.map geom vs[i]? = Option.map geom ws[i]? := by
    rw [← List.getElem?_map, ← List.getElem?_map, h]
  unfold vAt
  cases hv : vs[i]? with
  | none =>
    rw [hv] at h2
    cases hw : ws[i]? with
    | none => rfl
    | some w => rw [hw] at h2; exact Option.noConfusion h2
  | some v =>
    rw [hv] at h2
    cases hw : ws[i]? with
    | none => rw [hw] at h2; exact Option.noConfusion h2
    | some w =>
      rw [hw] at h2
      simp only [Option.map_some', Option.some.injEq] at h2
      simpa using h2

theorem specTriT_congr (vs ws : List Vertex) (h : vs.map geom = ws.map geom)
    (t : Nat × Nat × Nat) : specTriT vs t = specTriT ws t := by
  have h0 := geom_vAt_congr vs ws h t.1
  have h1 := geom_vAt_congr vs ws h t.2.1
  have h2 := geom_vAt_congr vs ws h t.2.2
  have p0 : (vAt vs t.1).position = (vAt ws t.1).position := congrArg Prod.fst h0
  have p1 : (vAt vs t.2.1).position = (vAt ws t.2.1).position := congrArg Prod.fst h1
  have p2 : (vAt vs t.2.2).position = (vAt ws t.2.2).position := congrArg Prod.fst h2
  have u0 : (vAt vs t.1).tex_coord = (vAt ws t.1).tex_coord := congrArg Prod.snd h0
  have u1 : (vAt vs t.2.1).tex_coord = (vAt ws t.2.1).tex_coord := congrArg Prod.snd h1
  have u2 : (vAt vs t.2.2).tex_coord = (vAt ws t.2.2).tex_coord := congrArg Prod.snd h2
  simp only [specTriT, p0, p1, p2, u0, u1, u2]

theorem specTriB_congr (vs ws : List Vertex) (h : vs.map geom = ws.map geom)
    (t : Nat × Nat × Nat) : specTriB vs t = specTriB ws t := by
  have h0 := geom_vAt_congr vs ws h t.1
  have h1 := geom_vAt_congr vs ws h t.2.1
  have h2 := geom_vAt_congr vs ws h t.2.2
  have p0 : (vAt vs t.1).position = (vAt ws t.1).position := congrArg Prod.fst h0
  have p1 : (vAt vs t.2.1).position = (vAt ws t.2.1).position := congrArg Prod.fst h1
  have p2 : (vAt vs t.2.2).position = (vAt ws t.2.2).position := congrArg Prod.fst h2
  have u0 : (vAt vs t.1).tex_coord = (vAt ws t.1).tex_coord := congrArg Prod.snd h0
  have u1 : (vAt vs t.2.1).tex_coord = (vAt ws t.2.1).tex_coord := congrArg Prod.snd h1
  have u2 : (vAt vs t.2.2).tex_coord = (vAt ws t.2.2).tex_coord := congrArg Prod.snd h2
  simp only [specTriB, p0, p1, p2, u0, u1, u2]

theorem sumT_congr (vs ws : List Vertex) (h : vs.map geom = ws.map geom)
    (tris : List (Nat × Nat × Nat)) (j : Nat) (init : V3) :
    sumT vs tris j init = sumT ws tris j init := by
  induction tris generalizing init with
  | nil => rfl
  | cons t rest ih =>
    unfold sumT
    simp only [List.foldl_cons]
    rw [specTriT_congr vs ws h t]
    exact ih (triStep (specTriT ws t) t j init)

theorem sumB_congr (vs ws : List Vertex) (h : vs.map geom = ws.map geom)
    (tris : List (Nat × Nat × Nat)) (j : Nat) (init : V3) :
    sumB vs tris j init = sumB ws tris j init := by
  induction tris generalizing init with
  | nil => rfl
  | cons t rest ih =>
    unfold sumB
    simp only [List.foldl_cons]
    rw [specTriB_congr vs ws h t]
    exact ih (triStep (specTriB ws t) t j init)

theorem zipWith_getElem {α β γ : Type} (f : α → β → γ) (as : List α) (bs : List β) (j : Nat) :
    (List.zipWith f as bs)[j]? = (as[j]?).bind (fun a => (bs[j]?).map (f a)) := by
  induction as generalizing bs j with
  | nil => simp
  | cons a as ih =>
    cases bs with
    | nil => simp
    | cons b bs =>
      cases j with
      | zero => simp
      | succ k => simpa using ih bs k

theorem F.mul_def (a b : F) : a * b = F.mul a b := rfl

theorem F.add_def (a b : F) : a + b = F.add a b := rfl

theorem F.sub_def (a b : F) : a - b = F.sub a b := rfl

theorem F.div_def (a b : F) : a / b = F.div a b := rfl

theorem F.neg_def (a : F) : -a = F.neg a := rfl

theorem triApply_getElem (tb : V3 × V3) (i0 i1 i2 : Nat) (vs : List Vertex) (j : Nat) :
    (triApply tb i0 i1 i2 vs)[j]? =
    (vs[j]?).map (fun v =>
      { v with tangent := triStep tb.1 (i0, i1, i2) j v.tangent,
               bitangent := triStep tb.2 (i0, i1, i2) j v.bitangent }) := by
  unfold triApply
  simp only [updateAt_getElem, Option.map_map]
  cases vs[j]? with
  | none => rfl
  | some v =>
    simp only [Option.map_some', Function.comp_apply]
    by_cases h0 : i0 = j <;> by_cases h1 : i1 = j <;> by_cases h2 : i2 = j <;>
      simp [h0, h1, h2, triStep, accTan, accBitan]

theorem bump3_getElem (i0 i1 i2 : Nat) (counts : List Nat) (j : Nat) :
    (bump3 i0 i1 i2 counts)[j]? =
    (counts[j]?).map (fun c => c + slotsOf (i0, i1, i2) j) := by
  unfold bump3
  simp only [updateAt_getElem, Option.map_map]
  cases counts[j]? with
  | none => rfl
  | some c =>
    simp only [Option.map_some', Function.comp_apply]
    by_cases h0 : i0 = j <;> by_cases h1 : i1 = j <;> by_cases h2 : i2 = j <;>
      simp [h0, h1, h2, slotsOf, bump]

theorem triApply_map_geom (tb : V3 × V3) (i0 i1 i2 : Nat) (vs : List Vertex) :
    (triApply tb i0 i1 i2 vs).map geom = vs.map geom := by
  have ht : ∀ (ws : List Vertex) (i : Nat),
      (updateAt ws i (accTan tb.1)).map geom = ws.map geom :=
    fun ws i => updateAt_map_geom ws i (accTan tb.1) (fun _ => rfl)
  have hb : ∀ (ws : List Vertex) (i : Nat),
      (updateAt ws i (accBitan tb.2)).map geom = ws.map geom :=
    fun ws i => updateAt_map_geom ws i (accBitan tb.2) (fun _ => rfl)
  unfold triApply
  rw [hb, hb, hb, ht, ht, ht]

theorem specTriT_eq_code (vs : List Vertex) (i0 i1 i2 : Nat) (v0 v1 v2 : Vertex)
    (h0 : vs[i0]? = some v0) (h1 : vs[i1]? = some v1) (h2 : vs[i2]? = some v2) :
    specTriT vs (i0, i1, i2) = (triTangentBitangent v0 v1 v2).1 := by
  simp only [specTriT, triTangentBitangent, vAt, h0, h1, h2, Option.getD_some]

theorem specTriB_eq_code (vs : List Vertex) (i0 i1 i2 : Nat) (v0 v1 v2 : Vertex)
    (h0 : vs[i0]? = some v0) (h1 : vs[i1]? = some v1) (h2 : vs[i2]? = some v2) :
    specTriB vs (i0, i1, i2) = (triTangentBitangent v0 v1 v2).2 := by
  simp only [specTriB, triTangentBitangent, vAt, h0, h1, h2, Option.getD_some]

theorem chunks3_eq_nil (idxs : List Nat) (h : chunks3 idxs = some []) : idxs = [] := by
  match idxs with
  | [] => rfl
  | [a] => simp [chunks3] at h
  | [a, b] => simp [chunks3] at h
  | a :: b :: c :: rest =>
    simp only [chunks3] at h
    cases hr : chunks3 rest with
    | none => rw [hr] at h; simp at h
    | some l => rw [hr] at h; simp at h

theorem chunks3_eq_cons (idxs : List Nat) (t : Nat × Nat × Nat) (l : List (Nat × Nat × Nat))
    (h : chunks3 idxs = some (t :: l)) :
    ∃ rest, idxs = t.1 :: t.2.1 :: t.2.2 :: rest ∧ chunks3 rest = some l := by
  match idxs with
  | [] => simp [chunks3] at h
  | [a] => simp [chunks3] at h
  | [a, b] => simp [chunks3] at h
  | a :: b :: c :: rest =>
    simp only [chunks3] at h
    cases hr : chunks3 rest with
    | none => rw [hr] at h; simp at h
    | some l2 =>
      rw [hr] at h
      simp only [Option.map_some', Option.some.injEq, List.cons.injEq] at h
      obtain ⟨ht, hl⟩ := h
      subst hl
      rw [← ht]
      exact ⟨rest, rfl, hr⟩

set_option maxHeartbeats 800000 in
theorem accumChunks_invariant (tris : List (Nat × Nat × Nat)) :
    ∀ (idxs : List Nat) (vs : List Vertex) (counts : List Nat)
      (vsf : List Vertex) (countsf : List Nat),
      chunks3 idxs = some tris →
      accumChunks idxs vs counts = some (vsf, countsf) →
      ∀ j : Nat,
        vsf[j]? = (vs[j]?).map (fun v =>
          { v with tangent := sumT vs tris j v.tangent,
                   bitangent := sumB vs tris j v.bitangent }) ∧
        countsf[j]? = (counts[j]?).map (fun c => c + incidence tris j) := by
  induction tris with
  | nil =>
    intro idxs vs counts vsf countsf hch hacc j
    have hnil : idxs = [] := chunks3_eq_nil idxs hch
    subst hnil
    simp only [accumChunks, Option.some.injEq, Prod.mk.injEq] at hacc
    obtain ⟨hvs, hcs⟩ := hacc
    subst hvs; subst hcs
    constructor
    · cases vs[j]? <;> simp [sumT, sumB]
    · cases counts[j]? <;> simp [incidence]
  | cons t tris1 ih =>
    intro idxs vs counts vsf countsf hch hacc j
    obtain ⟨rest, hidxs, hch2⟩ := chunks3_eq_cons idxs t tris1 hch
    obtain ⟨i0, i1, i2⟩ := t
    subst hidxs
    cases hv0 : vs[i0]? with
    | none =>
      simp only [accumChunks, hv0] at hacc
      exact Option.noConfusion hacc
    | some v0 =>
      cases hv1 : vs[i1]? with
      | none =>
        simp only [accumChunks, hv0, hv1] at hacc
        exact Option.noConfusion hacc
      | some v1 =>
        cases hv2 : vs[i2]? with
        | none =>
          simp only [accumChunks, hv0, hv1, hv2] at hacc
          exact Option.noConfusion hacc
        | some v2 =>
          simp only [accumChunks, hv0, hv1, hv2] at hacc
          have ihr := ih rest
            (triApply (triTangentBitangent v0 v1 v2) i0 i1 i2 vs)
            (bump3 i0 i1 i2 counts) vsf countsf hch2 hacc j
          obtain ⟨ihv, ihc⟩ := ihr
          have hgeom := triApply_map_geom (triTangentBitangent v0 v1 v2) i0 i1 i2 vs
          constructor
          · rw [ihv, triApply_getElem, Option.map_map]
            have hsT := sumT_congr _ vs hgeom
            have hsB := sumB_congr _ vs hgeom
            have hT := specTriT_eq_code vs i0 i1 i2 v0 v1 v2 hv0 hv1 hv2
            have hB := specTriB_eq_code vs i0 i1 i2 v0 v1 v2 hv0 hv1 hv2
            cases vs[j]? with
            | none => simp only [Option.map_none']
            | some v =>
              simp only [Option.map_some', Function.comp_apply, hsT, hsB]
              simp only [sumT, sumB, List.foldl_cons, hT, hB]
          · rw [ihc, bump3_getElem, Option.map_map]
            cases counts[j]? with
            | none => simp only [Option.map_none']
            | some c =>
              simp only [Option.map_some', Function.comp_apply, Option.some.injEq]
              have hinc : incidence ((i0, i1, i2) :: tris1) j
                  = slotsOf (i0, i1, i2) j + incidence tris1 j := by
                simp [incidence]
              rw [hinc, Nat.add_assoc]

theorem F.mul_one_div_nat (x : F) (n : Nat) (hn : 0 < n) :
    F.mul x (F.div 1 (F.fin n)) = F.div x (F.fin n) := by
  have hq : (0 : ℚ) < (n : ℚ) := by exact_mod_cast hn
  have hne : ((n : ℚ)) ≠ 0 := ne_of_gt hq
  have hdiv : F.div 1 (F.fin n) = F.fin (1 / (n : ℚ)) := by
    show F.div (F.fin ((1 : Nat) : ℚ)) (F.fin n) = F.fin (1 / (n : ℚ))
    simp [F.div, hne]
  rw [hdiv]
  have hpos : 0 < 1 / (n : ℚ) := by positivity
  cases x with
  | fin q =>
    simp only [F.mul, F.div, hne, if_false]
    rw [mul_one_div]
  | inf =>
    simp only [F.mul, F.div, hpos, not_lt.mpr (le_of_lt hq), if_true, if_false]
  | neginf =>
    simp only [F.mul, F.div, hpos, not_lt.mpr (le_of_lt hq), if_true, if_false]
  | nan => rfl

theorem V3.smul_one_div_nat (a : V3) (n : Nat) (hn : 0 < n) :
    V3.smul a (F.div 1 (F.fin n)) = V3.divNat a n := by
  have h := fun x => F.mul_one_div_nat x n hn
  simp [V3.smul, V3.divNat, F.mul_def, h]

theorem averageVertex_pos (v : Vertex) (n : Nat) (hn : 0 < n) :
    averageVertex v n = { v with tangent := V3.divNat v.tangent n,
                                 bitangent := V3.divNat v.bitangent n } := by
  simp only [averageVertex]
  rw [V3.smul_one_div_nat _ n hn, V3.smul_one_div_nat _ n hn]

theorem averageVertex_zero (v : Vertex) (hvt : v.tangent = zeroV3) (hvb : v.bitangent = zeroV3) :
    averageVertex v 0 = { v with tangent := nanV3, bitangent := nanV3 } := by
  have hd : F.div 1 (F.fin (0 : Nat)) = F.inf := by decide
  have hm : V3.smul zeroV3 F.inf = nanV3 := by decide
  simp only [averageVertex]
  rw [hvt, hvb, hd, hm]

theorem foldl_triStep_incidence_zero (g : (Nat × Nat × Nat) → V3)
    (tris : List (Nat × Nat × Nat)) (j : Nat) (h : incidence tris j = 0) :
    ∀ init : V3, tris.foldl (fun acc t => triStep (g t) t j acc) init = init := by
  revert h
  induction tris with
  | nil => intro _ init; rfl
  | cons t rest ih =>
    intro h init
    have hparts : slotsOf t j = 0 ∧ incidence rest j = 0 := by
      have h2 : slotsOf t j + incidence rest j = 0 := by simpa [incidence] using h
      omega
    have hstep : triStep (g t) t j init = init := by
      have h0 : t.1 ≠ j := by
        intro he
        simp [slotsOf, he] at hparts
      have h1 : t.2.1 ≠ j := by
        intro he
        simp [slotsOf, he] at hparts
      have h2 : t.2.2 ≠ j := by
        intro he
        simp [slotsOf, he] at hparts
      simp [triStep, h0, h1, h2]
    simp only [List.foldl_cons, hstep]
    exact ih hparts.2 init

theorem sumT_incidence_zero (vs : List Vertex) (tris : List (Nat × Nat × Nat)) (j : Nat)
    (h : incidence tris j = 0) (init : V3) : sumT vs tris j init = init :=
  foldl_triStep_incidence_zero (fun t => specTriT vs t) tris j h init

theorem sumB_incidence_zero (vs : List Vertex) (tris : List (Nat × Nat × Nat)) (j : Nat)
    (h : incidence tris j = 0) (init : V3) : sumB vs tris j init = init :=
  foldl_triStep_incidence_zero (fun t => specTriB vs t) tris j h init

theorem update_tangents_getElem (m m2 : Mesh) (tris : List (Nat × Nat × Nat))
    (hch : chunks3 m.indices = some tris)
    (hup : m.update_tangents = some m2)
    (j : Nat) (hj : j < m.vertices.length) :
    m2.vertices[j]? = some (averageVertex
      { m.vertices.get ⟨j, hj⟩ with
          tangent := sumT m.vertices tris j (m.vertices.get ⟨j, hj⟩).tangent,
          bitangent := sumB m.vertices tris j (m.vertices.get ⟨j, hj⟩).bitangent }
      (incidence tris j)) := by
  unfold Mesh.update_tangents at hup
  cases hacc : accumChunks m.indices m.vertices (List.replicate m.vertices.length 0) with
  | none =>
    rw [hacc] at hup
    exact Option.noConfusion hup
  | some r =>
    rw [hacc] at hup
    simp only [Option.some.injEq] at hup
    obtain ⟨ihv, ihc⟩ := accumChunks_invariant tris m.indices m.vertices
      (List.replicate m.vertices.length 0) r.1 r.2 hch hacc j
    have hvj : m.vertices[j]? = some (m.vertices.get ⟨j, hj⟩) := by
      rw [List.getElem?_eq_getElem hj]
      rfl
    rw [hvj, Option.map_some'] at ihv
    have hcj : (List.replicate m.vertices.length (0 : Nat))[j]? = some 0 := by
      rw [List.getElem?_replicate, if_pos hj]
    rw [hcj, Option.map_some', Nat.zero_add] at ihc
    rw [← hup]
    show (List.zipWith averageVertex r.1 r.2)[j]? = _
    rw [zipWith_getElem, ihv, ihc]
    rfl

/-- C1: for every mesh whose triangle indices are all in range (so that
`update_tangents` completes) and whose tangents and bitangents start at
zero, every vertex incident to `N > 0` triangle slots ends with tangent
equal to the arithmetic mean of the per-triangle contributions
`T = (dP1*dUV2.y - dP2*dUV1.y) * r` and bitangent equal to the mean of
`B = (dP2*dUV1.x - dP1*dUV2.x) * (-r)`, with
`r = 1 / (dUV1.x*dUV2.y - dUV1.y*dUV2.x)`. -/
theorem update_tangents_gives_mean_of_contributions
    (m m2 : Mesh) (tris : List (Nat × Nat × Nat))
    (hch : chunks3 m.indices = some tris)
    (hup : m.update_tangents = some m2)
    (hzero : ∀ v ∈ m.vertices, v.tangent = zeroV3 ∧ v.bitangent = zeroV3)
    (j : Nat) (hj : j < m.vertices.length)
    (hpos : 0 < incidence tris j) :
    ∃ v2, m2.vertices[j]? = some v2 ∧
      v2.tangent = specMeanT m.vertices tris j ∧
      v2.bitangent = specMeanB m.vertices tris j := by
  have h := update_tangents_getElem m m2 tris hch hup j hj
  have hz := hzero (m.vertices.get ⟨j, hj⟩) (m.vertices.get_mem j hj)
  rw [hz.1, hz.2] at h
  rw [averageVertex_pos _ _ hpos] at h
  exact ⟨_, h, rfl, rfl⟩

/-- C2 a vertex referenced by zero triangles does NOT keep its zero
tangent: the averaging pass multiplies it by `1.0 / 0 = +inf` and
`0 * inf = NaN`, so it ends with all components NaN. Amended statement:
under the same hypotheses as C1 but with incidence 0, the vertex's final
tangent and bitangent are the all-NaN vector. -/
theorem update_tangents_zero_incidence_nan
    (m m2 : Mesh) (tris : List (Nat × Nat × Nat))
    (hch : chunks3 m.indices = some tris)
    (hup : m.update_tangents = some m2)
    (hzero : ∀ v ∈ m.vertices, v.tangent = zeroV3 ∧ v.bitangent = zeroV3)
    (j : Nat) (hj : j < m.vertices.length)
    (hz : incidence tris j = 0) :
    ∃ v2, m2.vertices[j]? = some v2 ∧ v2.tangent = nanV3 ∧ v2.bitangent = nanV3 := by
  have h := update_tangents_getElem m m2 tris hch hup j hj
  have hzv := hzero (m.vertices.get ⟨j, hj⟩) (m.vertices.get_mem j hj)
  rw [hzv.1, hzv.2, sumT_incidence_zero _ _ _ hz, sumB_incidence_zero _ _ _ hz, hz] at h
  rw [averageVertex_zero _ rfl rfl] at h
  exact ⟨_, h, rfl, rfl⟩




/-- C2 counterexample: on a mesh with one vertex and no triangles,
`update_tangents` completes and leaves the vertex's tangent and
bitangent at the all-NaN vector, not at the zero vector. -/
theorem update_tangents_zero_incidence_counterexample :
    (loneMesh.update_tangents).map (fun m2 => m2.vertices.map Vertex.tangent) = some [nanV3] ∧
    (loneMesh.update_tangents).map (fun m2 => m2.vertices.map Vertex.bitangent) = some [nanV3] ∧
    nanV3 ≠ zeroV3 := by decide

/-- Witness for the amended C2 theorem at the concrete one-vertex mesh. -/
theorem update_tangents_zero_incidence_nan_witness :
    incidence [] 0 = 0 ∧
    (∃ v2, loneOut.vertices[0]? = some v2 ∧ v2.tangent = nanV3 ∧ v2.bitangent = nanV3) :=
  ⟨rfl, update_tangents_zero_incidence_nan loneMesh loneOut []
    (by decide) (by decide) (by decide) 0 (by decide) (by decide)⟩




set_option maxRecDepth 10000 in
set_option maxHeartbeats 1000000 in
/-- Witness for the C1 theorem at the concrete quad mesh, at the vertex
shared by both triangles. -/
theorem update_tangents_gives_mean_witness :
    chunks3 quadMesh.indices = some [(0, 1, 2), (0, 2, 3)] ∧
    0 < incidence [(0, 1, 2), (0, 2, 3)] 0 ∧
    (∃ v2, quadOut.vertices[0]? = some v2 ∧
      v2.tangent = specMeanT quadMesh.vertices [(0, 1, 2), (0, 2, 3)] 0 ∧
      v2.bitangent = specMeanB quadMesh.vertices [(0, 1, 2), (0, 2, 3)] 0) :=
  ⟨by decide, by decide,
   update_tangents_gives_mean_of_contributions quadMesh quadOut [(0, 1, 2), (0, 2, 3)]
     (by decide) (by rfl) (by decide) 0 (by decide) (by decide)⟩

/-- C5: after `create(W,H)` (`App::new`) or `resize(W,H)`, all four
G-buffer targets (depth, albedo, position, normal) report width `W` and
height `H`, identical to the surface's current size. -/
theorem gbuffer_targets_match_surface_size (sc : SurfaceConfig) (s : App) :
    ((App.new sc).depth_texture.width = sc.width ∧
     (App.new sc).depth_texture.height = sc.height ∧
     (App.new sc).albedo_g_texture.width = sc.width ∧
     (App.new sc).albedo_g_texture.height = sc.height ∧
     (App.new sc).position_g_texture.width = sc.width ∧
     (App.new sc).position_g_texture.height = sc.height ∧
     (App.new sc).normal_g_texture.width = sc.width ∧
     (App.new sc).normal_g_texture.height = sc.height) ∧
    ((s.resize sc).depth_texture.width = sc.width ∧
     (s.resize sc).depth_texture.height = sc.height ∧
     (s.resize sc).albedo_g_texture.width = sc.width ∧
     (s.resize sc).albedo_g_texture.height = sc.height ∧
     (s.resize sc).position_g_texture.width = sc.width ∧
     (s.resize sc).position_g_texture.height = sc.height ∧
     (s.resize sc).normal_g_texture.width = sc.width ∧
     (s.resize sc).normal_g_texture.height = sc.height) :=
  ⟨⟨rfl, rfl, rfl, rfl, rfl, rfl, rfl, rfl⟩, ⟨rfl, rfl, rfl, rfl, rfl, rfl, rfl, rfl⟩⟩

/-- C9: the albedo target's format is not preserved across resize:
`App::new` creates it as `Bgra8UnormSrgb` but `App::resize` recreates
it as `Rgba8UnormSrgb`, while position and normal stay `Rgba16Float` in
both, and the dimensions stay in lock-step with the surface. -/
theorem albedo_format_changes_on_resize (sc : SurfaceConfig) (s : App) :
    (App.new sc).albedo_g_texture.format = TextureFormat.Bgra8UnormSrgb ∧
    (s.resize sc).albedo_g_texture.format = TextureFormat.Rgba8UnormSrgb ∧
    TextureFormat.Bgra8UnormSrgb ≠ TextureFormat.Rgba8UnormSrgb ∧
    (App.new sc).position_g_texture.format = TextureFormat.Rgba16Float ∧
    (s.resize sc).position_g_texture.format = TextureFormat.Rgba16Float ∧
    (App.new sc).normal_g_texture.format = TextureFormat.Rgba16Float ∧
    (s.resize sc).normal_g_texture.format = TextureFormat.Rgba16Float ∧
    (s.resize sc).albedo_g_texture.width = sc.width ∧
    (s.resize sc).albedo_g_texture.height = sc.height :=
  ⟨rfl, rfl, by decide, rfl, rfl, rfl, rfl, rfl, rfl⟩

/-- C8: for every prior camera state, the reset key (R) sets yaw and
pitch to exactly 0 and leaves the distance — and every other field — of
the state unchanged. -/
theorem reset_zeroes_yaw_pitch_only (s : App) :
    (s.on_key_pressed KeyCode.KeyR).yaw = 0 ∧
    (s.on_key_pressed KeyCode.KeyR).pitch = 0 ∧
    (s.on_key_pressed KeyCode.KeyR).distance = s.distance ∧
    s.on_key_pressed KeyCode.KeyR = { s with yaw := 0, pitch := 0 } :=
  ⟨rfl, rfl, rfl, rfl⟩

/-- C10: the camera starts at yaw 90 degrees, pitch 0, distance 10,
while reset sets yaw to 0 — so reset never restores the startup
orientation: the yaw after reset differs from the initial yaw by
exactly 90 degrees. -/
theorem reset_differs_from_initial_yaw (sc : SurfaceConfig) :
    (App.new sc).yaw = F.fin 90 ∧
    (App.new sc).pitch = 0 ∧
    (App.new sc).distance = F.fin 10 ∧
    ((App.new sc).on_key_pressed KeyCode.KeyR).yaw = 0 ∧
    (App.new sc).yaw - ((App.new sc).on_key_pressed KeyCode.KeyR).yaw = F.fin 90 ∧
    (F.fin 90 : F) ≠ (0 : F) :=
  ⟨rfl, rfl, rfl, rfl, show F.fin 90 - (0 : F) = F.fin 90 by simp [F.sub_def, F.sub, F.neg, F.add], by decide⟩

theorem F.fin_add (a b : ℚ) : F.fin a + F.fin b = F.fin (a + b) := rfl

theorem F.fin_mul (a b : ℚ) : F.fin a * F.fin b = F.fin (a * b) := rfl

theorem F.fin_sub (a b : ℚ) : F.fin a - F.fin b = F.fin (a - b) := by
  show F.fin (a + -b) = F.fin (a - b)
  rw [sub_eq_add_neg]

theorem F.add_fin (a b : ℚ) : F.add (F.fin a) (F.fin b) = F.fin (a + b) := rfl

theorem F.fin_blt (a b : ℚ) : F.blt (F.fin a) (F.fin b) = decide (a < b) := rfl

theorem F.fin_ble (a b : ℚ) : F.ble (F.fin a) (F.fin b) = decide (a ≤ b) := rfl

theorem F.fin_div (a b : ℚ) (hb : b ≠ 0) : F.div (F.fin a) (F.fin b) = F.fin (a / b) := by
  simp [F.div, hb]

theorem clamp_half_in_pm5 : F.clamp (F.fin (1 / 2)) (F.fin (-5)) (F.fin 5) = F.fin (1 / 2) := by
  have h1 : F.blt (F.fin (1 / 2)) (F.fin (-5)) = false := by
    rw [F.fin_blt]
    norm_num
  have h2 : F.blt (F.fin 5) (F.fin (1 / 2)) = false := by
    rw [F.fin_blt]
    norm_num
  simp only [F.clamp, h1, h2, Bool.false_eq_true, if_false]

/-- C3 counterexample: with orbiting OFF, nudge the light right
(ArrowRight), making the stored position x = 3.5 the last slider/nudge
write; the next frame's light update nevertheless applies the slider
value 0.5, not 3.5 — the frame does not apply "whatever the last
slider/nudge value was". -/
theorem light_frame_overwrites_nudge_counterexample :
    ((App.new sc0).on_key_pressed KeyCode.ArrowRight).light_angle = none ∧
    ((App.new sc0).on_key_pressed KeyCode.ArrowRight).light_position.x = F.fin (7 / 2) ∧
    (((App.new sc0).on_key_pressed KeyCode.ArrowRight).render_light_update
        (fun _ => 0) (fun _ => 0) (F.fin (1 / 60))).light_position.x = F.fin (1 / 2) ∧
    (F.fin (1 / 2) : F) ≠ F.fin (7 / 2) := by
  refine ⟨rfl, ?_, ?_, ?_⟩
  · show F.fin 3 + F.fin (1 / 2) = F.fin (7 / 2)
    rw [F.fin_add]
    norm_num
  · show F.clamp (F.fin (1 / 2)) (F.fin (-5)) (F.fin 5) = F.fin (1 / 2)
    exact clamp_half_in_pm5
  · simp only [ne_eq, F.fin.injEq]
    norm_num

/-- C3 amended: the light is a two-mode machine. While orbiting
(light_angle is Some), the frame derives the position from the advanced
angle — cos into x, fixed height 1, sin into z — and the sliders are
not applied (any slider contents give the same position). While manual
(None), the frame applies the three sliders' current values, regardless
of the stored light position — so a nudge updates the stored position
(ArrowRight adds 0.5 to x) but the next frame overwrites it with the
slider values. -/
theorem light_two_mode_state_machine (s : App) (cosD sinD : F → F) (dt : F) :
    (∀ a, s.light_angle = some a →
      (s.render_light_update cosD sinD dt).light_position =
        ⟨cosD (a + F.fin 1 * F.div 1 (F.div (F.div 1 (F.fin 60)) dt)) * F.fin 3, F.fin 1,
         sinD (a + F.fin 1 * F.div 1 (F.div (F.div 1 (F.fin 60)) dt)) * F.fin 3⟩ ∧
      (∀ sl2 : List Slider,
        ({ s with sliders := sl2 }.render_light_update cosD sinD dt).light_position =
        (s.render_light_update cosD sinD dt).light_position)) ∧
    (s.light_angle = none →
      (s.render_light_update cosD sinD dt).light_position =
        ⟨((s.sliders[light_x_id]?).getD Slider.new).value,
         ((s.sliders[light_y_id]?).getD Slider.new).value,
         ((s.sliders[light_z_id]?).getD Slider.new).value⟩ ∧
      (∀ p : V3,
        ({ s with light_position := p }.render_light_update cosD sinD dt).light_position =
        (s.render_light_update cosD sinD dt).light_position)) ∧
    (s.on_key_pressed KeyCode.ArrowRight).light_position.x = s.light_position.x + F.fin (1 / 2) := by
  refine ⟨?_, ?_, rfl⟩
  · intro a ha
    constructor
    · simp only [App.render_light_update, ha]
    · intro sl2
      simp only [App.render_light_update, ha]
  · intro ha
    constructor
    · simp only [App.render_light_update, ha]
    · intro p
      simp only [App.render_light_update, ha]

/-- Witness for the amended C3 theorem: on the freshly created app
(manual mode), the frame update applies the sliders' default values
(0.5, 0.5, 0.5). -/
theorem light_two_mode_state_machine_witness :
    ((App.new sc0).render_light_update (fun _ => 0) (fun _ => 0) (F.fin (1 / 60))).light_position =
      ⟨F.fin (1 / 2), F.fin (1 / 2), F.fin (1 / 2)⟩ := by
  have h := ((light_two_mode_state_machine (App.new sc0)
    (fun _ => 0) (fun _ => 0) (F.fin (1 / 60))).2.1 rfl).1
  rw [h]
  have hv : ((App.new sc0).sliders[light_x_id]?.getD Slider.new).value = F.fin (1 / 2) := by
    show F.clamp (F.fin (1 / 2)) (F.fin (-5)) (F.fin 5) = F.fin (1 / 2)
    exact clamp_half_in_pm5
  have hv1 : ((App.new sc0).sliders[light_y_id]?.getD Slider.new).value = F.fin (1 / 2) := by
    show F.clamp (F.fin (1 / 2)) (F.fin (-5)) (F.fin 5) = F.fin (1 / 2)
    exact clamp_half_in_pm5
  have hv2 : ((App.new sc0).sliders[light_z_id]?.getD Slider.new).value = F.fin (1 / 2) := by
    show F.clamp (F.fin (1 / 2)) (F.fin (-5)) (F.fin 5) = F.fin (1 / 2)
    exact clamp_half_in_pm5
  rw [hv, hv1, hv2]

theorem claimScan_lt (x y : F) (l : List Slider) :
    ∀ (i : Nat) (sl2 : Slider), claimScan x y l = some (i, sl2) → i < l.length := by
  induction l with
  | nil => intro i sl2 h; simp [claimScan] at h
  | cons sl rest ih =>
    intro i sl2 h
    simp only [claimScan] at h
    by_cases hc : (sl.bounds.contains x y && (sl.on_mouse_down x y).2) = true
    · rw [if_pos hc] at h
      simp only [Option.some.injEq, Prod.mk.injEq] at h
      obtain ⟨hi, _⟩ := h
      simp [← hi]
    · rw [if_neg hc] at h
      cases hsc : claimScan x y rest with
      | none => rw [hsc] at h; exact Option.noConfusion h
      | some ksl =>
        rw [hsc] at h
        simp only [Option.some.injEq, Prod.mk.injEq] at h
        obtain ⟨hi, _⟩ := h
        have := ih ksl.1 ksl.2 (by rw [hsc])
        simp only [List.length_cons, ← hi]
        omega

theorem on_mouse_down_claimed (s : App) (b : MouseButton) (i : Nat) (sl2 : Slider)
    (h : claimScan s.last_mouse_position.1 s.last_mouse_position.2 s.sliders = some (i, sl2)) :
    s.on_mouse_down b = { s with sliders := s.sliders.set i sl2, active_slider := some i } := by
  unfold App.on_mouse_down
  rw [h]

theorem on_mouse_moved_captured (s : App) (i : Nat) (sl : Slider)
    (hact : s.active_slider = some i) (hsl : s.sliders[i]? = some sl) (x y : F) :
    s.on_mouse_moved x y =
      { s with last_mouse_position := (x, y),
               sliders := s.sliders.set i (sl.on_mouse_dragged x y) } := by
  unfold App.on_mouse_moved
  simp only [hact, hsl]

theorem moves_while_captured (moves : List (F × F)) :
    ∀ (s : App) (i : Nat) (sl : Slider),
      s.active_slider = some i → s.sliders[i]? = some sl →
      ((moves.foldl (fun st p => st.on_mouse_moved p.1 p.2) s).yaw = s.yaw ∧
       (moves.foldl (fun st p => st.on_mouse_moved p.1 p.2) s).pitch = s.pitch ∧
       (moves.foldl (fun st p => st.on_mouse_moved p.1 p.2) s).rotating = s.rotating ∧
       (moves.foldl (fun st p => st.on_mouse_moved p.1 p.2) s).active_slider = some i ∧
       (moves.foldl (fun st p => st.on_mouse_moved p.1 p.2) s).sliders =
         s.sliders.set i (moves.foldl (fun w p => w.on_mouse_dragged p.1 p.2) sl)) := by
  induction moves with
  | nil =>
    intro s i sl hact hsl
    exact ⟨rfl, rfl, rfl, hact, (set_self _ _ _ hsl).symm⟩
  | cons p ps ih =>
    intro s i sl hact hsl
    have hlt : i < s.sliders.length := by
      by_contra hge
      rw [List.getElem?_eq_none (Nat.le_of_not_lt hge)] at hsl
      exact Option.noConfusion hsl
    have hstep := on_mouse_moved_captured s i sl hact hsl p.1 p.2
    have hget : (s.sliders.set i (sl.on_mouse_dragged p.1 p.2))[i]? =
        some (sl.on_mouse_dragged p.1 p.2) := by
      rw [List.getElem?_set]
      simp [hlt]
    have h2 := ih { s with last_mouse_position := (p.1, p.2),
                           sliders := s.sliders.set i (sl.on_mouse_dragged p.1 p.2) }
      i (sl.on_mouse_dragged p.1 p.2) hact hget
    simp only [List.foldl_cons, hstep]
    refine ⟨h2.1, h2.2.1, h2.2.2.1, h2.2.2.2.1, ?_⟩
    rw [h2.2.2.2.2]
    simp only [List.set_set]

/-- C4: a pointer-down that a slider claims captures that slider; every
following pointer-move — at any position whatsoever — is forwarded as a
drag to that captured slider only (all other sliders keep their state),
and the camera yaw, pitch, and rotation-drag state never change during
the capture. -/
theorem capture_routes_moves_to_captured_slider_only
    (s : App) (b : MouseButton) (i : Nat) (sl2 : Slider)
    (hclaim : claimScan s.last_mouse_position.1 s.last_mouse_position.2 s.sliders
      = some (i, sl2))
    (moves : List (F × F)) :
    (s.on_mouse_down b).active_slider = some i ∧
    (s.on_mouse_down b).rotating = s.rotating ∧
    (moves.foldl (fun st p => st.on_mouse_moved p.1 p.2) (s.on_mouse_down b)).yaw = s.yaw ∧
    (moves.foldl (fun st p => st.on_mouse_moved p.1 p.2) (s.on_mouse_down b)).pitch = s.pitch ∧
    (moves.foldl (fun st p => st.on_mouse_moved p.1 p.2) (s.on_mouse_down b)).rotating
      = s.rotating ∧
    (moves.foldl (fun st p => st.on_mouse_moved p.1 p.2) (s.on_mouse_down b)).active_slider
      = some i ∧
    (moves.foldl (fun st p => st.on_mouse_moved p.1 p.2) (s.on_mouse_down b)).sliders
      = s.sliders.set i (moves.foldl (fun w p => w.on_mouse_dragged p.1 p.2) sl2) := by
  have hlt : i < s.sliders.length := claimScan_lt _ _ _ i sl2 hclaim
  have hdown := on_mouse_down_claimed s b i sl2 hclaim
  have hget : (s.sliders.set i sl2)[i]? = some sl2 := by
    rw [List.getElem?_set]
    simp [hlt]
  have h2 := moves_while_captured moves { s with sliders := s.sliders.set i sl2,
                                                 active_slider := some i } i sl2 rfl hget
  rw [hdown]
  refine ⟨rfl, rfl, h2.1, h2.2.1, h2.2.2.1, h2.2.2.2.1, ?_⟩
  rw [h2.2.2.2.2]
  simp only [List.set_set]

/-- Witness for the C4 theorem: on the fresh app the pointer is at the
origin, where the first slider's (zero-sized) track claims the down
event; after a move far away the capture is still on slider 0 and the
camera state is untouched. -/
theorem capture_routes_moves_witness :
    claimScan (App.new sc0).last_mouse_position.1 (App.new sc0).last_mouse_position.2
      (App.new sc0).sliders = some (0, c4slider) ∧
    (((App.new sc0).on_mouse_down MouseButton.Left).active_slider = some 0 ∧
     ([((F.fin 500 : F), (F.fin 400 : F))].foldl
        (fun st p => st.on_mouse_moved p.1 p.2)
        ((App.new sc0).on_mouse_down MouseButton.Left)).yaw = (App.new sc0).yaw ∧
     ([((F.fin 500 : F), (F.fin 400 : F))].foldl
        (fun st p => st.on_mouse_moved p.1 p.2)
        ((App.new sc0).on_mouse_down MouseButton.Left)).pitch = (App.new sc0).pitch ∧
     ([((F.fin 500 : F), (F.fin 400 : F))].foldl
        (fun st p => st.on_mouse_moved p.1 p.2)
        ((App.new sc0).on_mouse_down MouseButton.Left)).sliders
       = (App.new sc0).sliders.set 0
           ([((F.fin 500 : F), (F.fin 400 : F))].foldl
             (fun w p => w.on_mouse_dragged p.1 p.2) c4slider)) := by
  have hclaim : claimScan (App.new sc0).last_mouse_position.1
      (App.new sc0).last_mouse_position.2 (App.new sc0).sliders = some (0, c4slider) := rfl
  have h := capture_routes_moves_to_captured_slider_only (App.new sc0) MouseButton.Left 0
    c4slider hclaim [((F.fin 500 : F), (F.fin 400 : F))]
  exact ⟨hclaim, h.1, h.2.2.1, h.2.2.2.1, h.2.2.2.2.2.2⟩

theorem F.add_assoc (a b c : F) : F.add (F.add a b) c = F.add a (F.add b c) := by
  cases a <;> cases b <;> cases c <;> simp [F.add, Rat.add_assoc]

theorem F.add_zero_right (a : F) : F.add a (F.fin 0) = a := by
  cases a <;> simp [F.add]

theorem F.zero_add_left (a : F) : F.add (F.fin 0) a = a := by
  cases a <;> simp [F.add]

theorem foldl_add_init (l : List F) : ∀ a b : F, l.foldl F.add (F.add a b) = F.add a (l.foldl F.add b) := by
  induction l with
  | nil => intro a b; rfl
  | cons d rest ih =>
    intro a b
    simp only [List.foldl_cons]
    rw [F.add_assoc]
    exact ih a (F.add b d)

theorem sumF_cons (d : F) (ds : List F) : sumF (d :: ds) = F.add d (sumF ds) := by
  unfold sumF
  simp only [List.foldl_cons]
  rw [F.zero_add_left]
  have h := foldl_add_init ds d (F.fin 0)
  rw [F.add_zero_right] at h
  exact h

theorem findHover_none (x y : F) (l : List Slider)
    (h : ∀ sl ∈ l, sl.bounds.contains x y = false) : findHover x y l = none := by
  induction l with
  | nil => rfl
  | cons sl rest ih =>
    have hc := h sl (List.mem_cons_self sl rest)
    simp only [findHover, hc, Bool.false_eq_true, if_false]
    rw [ih (fun w hw => h w (List.mem_cons_of_mem sl hw))]

theorem on_mouse_moved_rotate (s : App) (p0 : F × F) (x y : F)
    (hrot : s.rotating = some p0) (hact : s.active_slider = none)
    (hout : ∀ sl ∈ s.sliders, sl.bounds.contains x y = false) :
    s.on_mouse_moved x y =
      { s with last_mouse_position := (x, y),
               yaw := s.yaw + (x - p0.1), pitch := s.pitch + (y - p0.2),
               rotating := some (x, y) } := by
  unfold App.on_mouse_moved
  simp only [hact, findHover_none x y s.sliders hout]
  unfold rotateStep
  simp only [hrot]

/-- C7: with a rotation drag active (started at `p0`), no slider
captured, and a sequence of pointer moves that no slider's hit box
consumes, followed by the drag-ending left release: the camera yaw has
increased by the sum of the per-move x deltas and the pitch by the sum
of the per-move y deltas (each delta taken against the previous pointer
position), and the rotation drag has ended. -/
theorem camera_drag_accumulates_deltas (moves : List (F × F)) :
    ∀ (s : App) (p0 : F × F),
      s.rotating = some p0 → s.active_slider = none →
      (∀ p ∈ moves, ∀ sl ∈ s.sliders, sl.bounds.contains p.1 p.2 = false) →
      (((moves.foldl (fun st q => st.on_mouse_moved q.1 q.2) s).on_mouse_up
          MouseButton.Left).yaw = F.add s.yaw (sumF (xDeltas p0 moves)) ∧
       ((moves.foldl (fun st q => st.on_mouse_moved q.1 q.2) s).on_mouse_up
          MouseButton.Left).pitch = F.add s.pitch (sumF (yDeltas p0 moves)) ∧
       ((moves.foldl (fun st q => st.on_mouse_moved q.1 q.2) s).on_mouse_up
          MouseButton.Left).rotating = none) := by
  induction moves with
  | nil =>
    intro s p0 hrot hact hout
    simp only [List.foldl_nil]
    unfold App.on_mouse_up
    simp only [hact]
    refine ⟨?_, ?_, rfl⟩
    · show s.yaw = F.add s.yaw (sumF [])
      rw [show sumF [] = F.fin 0 from rfl, F.add_zero_right]
    · show s.pitch = F.add s.pitch (sumF [])
      rw [show sumF [] = F.fin 0 from rfl, F.add_zero_right]
  | cons q qs ih =>
    intro s p0 hrot hact hout
    have hstep := on_mouse_moved_rotate s p0 q.1 q.2 hrot hact
      (hout q (List.mem_cons_self q qs))
    simp only [List.foldl_cons, hstep]
    have h2 := ih { s with last_mouse_position := (q.1, q.2),
                           yaw := s.yaw + (q.1 - p0.1), pitch := s.pitch + (q.2 - p0.2),
                           rotating := some (q.1, q.2) } q rfl hact
      (fun p hp sl hsl => hout p (List.mem_cons_of_mem q hp) sl hsl)
    refine ⟨?_, ?_, h2.2.2⟩
    · rw [h2.1]
      show F.add (F.add s.yaw (q.1 - p0.1)) (sumF (xDeltas q qs))
        = F.add s.yaw (sumF ((q.1 - p0.1) :: xDeltas q qs))
      rw [sumF_cons, F.add_assoc]
    · rw [h2.2.1]
      show F.add (F.add s.pitch (q.2 - p0.2)) (sumF (yDeltas q qs))
        = F.add s.pitch (sumF ((q.2 - p0.2) :: yDeltas q qs))
      rw [sumF_cons, F.add_assoc]

/-- Witness for the C7 theorem: on the fresh app with a drag started at
the origin, moves to (10, 5) then (15, 5) — per-move deltas (+10, +5)
and (+5, 0) — yield yaw  +15 and pitch +5: yaw 90 becomes 105, pitch 0
becomes 5, and the release ends the drag. -/
theorem camera_drag_accumulates_deltas_witness :
    ((([((F.fin 10 : F), (F.fin 5 : F)), (F.fin 15, F.fin 5)].foldl
        (fun st q => st.on_mouse_moved q.1 q.2) c7state).on_mouse_up
        MouseButton.Left).yaw
      = F.add c7state.yaw (sumF (xDeltas (F.fin 0, F.fin 0) [(F.fin 10, F.fin 5), (F.fin 15, F.fin 5)])) ∧
     (([((F.fin 10 : F), (F.fin 5 : F)), (F.fin 15, F.fin 5)].foldl
        (fun st q => st.on_mouse_moved q.1 q.2) c7state).on_mouse_up
        MouseButton.Left).pitch
      = F.add c7state.pitch (sumF (yDeltas (F.fin 0, F.fin 0) [(F.fin 10, F.fin 5), (F.fin 15, F.fin 5)]))) ∧
    F.add c7state.yaw (sumF (xDeltas (F.fin 0, F.fin 0) [(F.fin 10, F.fin 5), (F.fin 15, F.fin 5)]))
      = F.fin 105 ∧
    F.add c7state.pitch (sumF (yDeltas (F.fin 0, F.fin 0) [(F.fin 10, F.fin 5), (F.fin 15, F.fin 5)]))
      = F.fin 5 := by
  have h := camera_drag_accumulates_deltas [(F.fin 10, F.fin 5), (F.fin 15, F.fin 5)]
    c7state (F.fin 0, F.fin 0) rfl rfl (by decide)
  refine ⟨⟨h.1, h.2.1⟩, ?_, ?_⟩
  · show F.add (F.fin 90) (sumF (xDeltas (F.fin 0, F.fin 0) [(F.fin 10, F.fin 5), (F.fin 15, F.fin 5)]))
      = F.fin 105
    simp only [xDeltas, sumF, List.foldl, F.fin_sub, F.add_fin, F.fin.injEq]
    norm_num
  · show F.add (F.fin 0) (sumF (yDeltas (F.fin 0, F.fin 0) [(F.fin 10, F.fin 5), (F.fin 15, F.fin 5)]))
      = F.fin 5
    simp only [yDeltas, sumF, List.foldl, F.fin_sub, F.add_fin, F.fin.injEq]
    norm_num

theorem F.ofNat_eq_fin (n : Nat) : (no_index (OfNat.ofNat n) : F) = F.fin n := rfl

theorem F.ble_true_left_ne_nan (a b : F) (h : F.ble a b = true) : a ≠ F.nan := by
  cases a <;> simp_all [F.ble]

theorem F.ble_true_right_ne_nan (a b : F) (h : F.ble a b = true) : b ≠ F.nan := by
  cases a <;> cases b <;> simp_all [F.ble]

theorem F.clamp_mem (v lo hi : F) (h : F.ble lo hi = true) (hv : v ≠ F.nan) :
    F.ble lo (F.clamp v lo hi) = true ∧ F.ble (F.clamp v lo hi) hi = true := by
  cases lo <;> cases hi <;> cases v <;>
    simp_all [F.clamp, F.ble, F.blt] <;> split_ifs <;> simp_all

theorem inv_min_le_max (s : Slider) (mn mx : ℚ)
    (hmin : s.min = F.fin mn) (hmax : s.max = F.fin mx) (hinv : s.inv = true) :
    mn ≤ mx := by
  unfold Slider.inv at hinv
  rw [hmin, hmax] at hinv
  rw [Bool.and_eq_true] at hinv
  obtain ⟨h1, h2⟩ := hinv
  cases hval : s.value with
  | fin q =>
    rw [hval, F.fin_ble, decide_eq_true_eq] at h1
    rw [hval, F.fin_ble, decide_eq_true_eq] at h2
    linarith
  | inf => rw [hval] at h2; simp [F.ble] at h2
  | neginf => rw [hval] at h1; simp [F.ble] at h1
  | nan => rw [hval] at h1; simp [F.ble] at h1

theorem ble_fin_between (x : F) (a b : ℚ)
    (h1 : F.ble (F.fin a) x = true) (h2 : F.ble x (F.fin b) = true) :
    ∃ c : ℚ, x = F.fin c ∧ a ≤ c ∧ c ≤ b := by
  cases x with
  | fin c =>
    rw [F.fin_ble, decide_eq_true_eq] at h1
    rw [F.fin_ble, decide_eq_true_eq] at h2
    exact ⟨c, rfl, h1, h2⟩
  | inf => simp [F.ble] at h2
  | neginf => simp [F.ble] at h1
  | nan => simp [F.ble] at h1

theorem update_value_inv (s : Slider) (c a b mn mx : ℚ)
    (hmin : s.min = F.fin mn) (hmax : s.max = F.fin mx) (hmnx : mn ≤ mx)
    (ha : s.slide_bounds.min_x = F.fin a) (hb : s.slide_bounds.max_x = F.fin b)
    (hab : a < b) (hac : a ≤ c) (hcb : c ≤ b) :
    (s.update_value (F.fin c)).inv = true := by
  have hba : b - a ≠ 0 := by linarith
  have hval : (s.update_value (F.fin c)).value
      = F.fin (mn + (mx - mn) * ((c - a) / (b - a))) := by
    simp only [Slider.update_value, Rect.width, hmin, hmax, ha, hb]
    rw [F.fin_sub, F.fin_sub, F.fin_sub, F.div_def, F.fin_div _ _ hba, F.fin_mul, F.fin_add]
  have ht0 : 0 ≤ (c - a) / (b - a) := div_nonneg (by linarith) (by linarith)
  have ht1 : (c - a) / (b - a) ≤ 1 := (div_le_one (by linarith)).mpr (by linarith)
  have hlower : mn ≤ mn + (mx - mn) * ((c - a) / (b - a)) := by
    have := mul_nonneg (show (0:ℚ) ≤ mx - mn by linarith) ht0
    linarith
  have hupper : mn + (mx - mn) * ((c - a) / (b - a)) ≤ mx := by
    have := mul_le_mul_of_nonneg_left ht1 (show (0:ℚ) ≤ mx - mn by linarith)
    linarith
  unfold Slider.inv
  have hmin2 : (s.update_value (F.fin c)).min = F.fin mn := hmin
  have hmax2 : (s.update_value (F.fin c)).max = F.fin mx := hmax
  rw [hval, hmin2, hmax2, F.fin_ble, F.fin_ble]
  simp [hlower, hupper]

theorem on_mouse_down_inv (s : Slider) (x y : F) (a b mn mx : ℚ)
    (hinv : s.inv = true)
    (hmin : s.min = F.fin mn) (hmax : s.max = F.fin mx)
    (ha : s.slide_bounds.min_x = F.fin a) (hb : s.slide_bounds.max_x = F.fin b)
    (hab : a < b) :
    ((s.on_mouse_down x y).1).inv = true := by
  unfold Slider.on_mouse_down
  by_cases hc : s.slide_bounds.contains x y = true
  · rw [if_pos hc]
    unfold Rect.contains at hc
    rw [ha, hb] at hc
    rw [Bool.and_eq_true, Bool.and_eq_true, Bool.and_eq_true] at hc
    obtain ⟨⟨⟨h1, h2⟩, _⟩, _⟩ := hc
    obtain ⟨c, hx, hac, hcb⟩ := ble_fin_between x a b h1 h2
    rw [hx]
    exact update_value_inv s c a b mn mx hmin hmax
      (inv_min_le_max s mn mx hmin hmax hinv) ha hb hab hac hcb
  · rw [if_neg hc]
    exact hinv

theorem on_mouse_dragged_inv (s : Slider) (x y : F) (a b mn mx : ℚ)
    (hmnx : mn ≤ mx) (hmin : s.min = F.fin mn) (hmax : s.max = F.fin mx)
    (ha : s.slide_bounds.min_x = F.fin a) (hb : s.slide_bounds.max_x = F.fin b)
    (hab : a < b) (hx : x ≠ F.nan) :
    (s.on_mouse_dragged x y).inv = true := by
  unfold Slider.on_mouse_dragged
  by_cases h1 : F.blt x s.slide_bounds.min_x = true
  · rw [if_pos h1]
    unfold Slider.inv
    rw [hmin, hmax, F.fin_ble, F.fin_ble]
    simp [hmnx]
  · rw [if_neg h1]
    by_cases h2 : F.blt s.slide_bounds.max_x x = true
    · rw [if_pos h2]
      unfold Slider.inv
      rw [hmin, hmax, F.fin_ble, F.fin_ble]
      simp [hmnx]
    · rw [if_neg h2]
      rw [ha] at h1
      rw [hb] at h2
      cases x with
      | fin c =>
        rw [F.fin_blt] at h1 h2
        simp only [decide_eq_true_eq] at h1 h2
        exact update_value_inv s c a b mn mx hmin hmax hmnx ha hb hab
          (by exact le_of_not_lt h1) (by exact le_of_not_lt h2)
      | inf => simp [F.blt] at h2
      | neginf => simp [F.blt] at h1
      | nan => exact absurd rfl hx

/-- C6 counterexample: a freshly constructed slider has min 0 <= max 1
and a valid value 0.5, but its slide track is still `Rect::ZERO`, which
contains the origin; a mouse-down at the origin is claimed and computes
`t = (0 - 0) / 0 = NaN`, setting the value to NaN — so the invariant
`min <= value <= max` is NOT preserved by every slider operation. -/
theorem slider_invariant_counterexample :
    F.ble Slider.new.min Slider.new.max = true ∧
    Slider.new.inv = true ∧
    (Slider.new.on_mouse_down 0 0).2 = true ∧
    ((Slider.new.on_mouse_down 0 0).1).value = F.nan ∧
    ((Slider.new.on_mouse_down 0 0).1).inv = false := by
  have hble01 : F.ble (F.fin 0) (F.fin 1) = true := by
    rw [F.fin_ble, decide_eq_true_eq]
    norm_num
  have hble00 : F.ble (F.fin 0) (F.fin 0) = true := by
    rw [F.fin_ble, decide_eq_true_eq]
  have hcont : Rect.zero.contains (0 : F) (0 : F) = true := by
    unfold Rect.contains Rect.zero
    rw [show ((0 : F) = F.fin 0) from rfl, hble00]
    rfl
  have hdown2 : (Slider.new.on_mouse_down 0 0).2 = true := by
    unfold Slider.on_mouse_down
    rw [if_pos (show Slider.new.slide_bounds.contains 0 0 = true from hcont)]
  have hsub0 : (0 : F) - 0 = F.fin 0 := by
    rw [show ((0 : F) = F.fin 0) from rfl, F.fin_sub]
    norm_num
  have hdiv0 : F.div (F.fin 0) (F.fin 0) = F.nan := by
    simp [F.div]
  have hval : ((Slider.new.on_mouse_down 0 0).1).value = F.nan := by
    unfold Slider.on_mouse_down
    rw [if_pos (show Slider.new.slide_bounds.contains 0 0 = true from hcont)]
    show (Slider.new.update_value 0).value = F.nan
    simp only [Slider.update_value, Rect.width]
    show Slider.new.min + (Slider.new.max - Slider.new.min)
      * (((0 : F) - 0) / ((0 : F) - 0)) = F.nan
    rw [hsub0, F.div_def, hdiv0]
    rfl
  refine ⟨hble01, ?_, hdown2, hval, ?_⟩
  · unfold Slider.inv
    show (F.ble (F.fin 0) (F.fin (1 / 2)) && F.ble (F.fin (1 / 2)) (F.fin 1)) = true
    rw [F.fin_ble, F.fin_ble]
    norm_num
  · unfold Slider.inv
    rw [hval]
    show (F.ble Slider.new.min F.nan && F.ble F.nan ((Slider.new.on_mouse_down 0 0).1).max)
      = false
    rw [show F.ble Slider.new.min F.nan = false by cases h : Slider.new.min <;> simp [F.ble]]
    rfl

/-- C6 amended: for every slider, the invariant `min <= value <= max`
holds after construction (`Slider::new`) and is preserved by
`with_min_max` (given ordered new bounds), by `set_value`/`with_value`
(given ordered bounds and a non-NaN input — `f32::clamp` lets NaN pass
through), by `on_mouse_up` and `on_mouse_moved` (no-ops), by an
unclaimed `on_mouse_down` (state unchanged), and by a claimed
`on_mouse_down` or a drag provided the slide track has positive finite
width (on a degenerate track — e.g. a fresh slider — a click inside it
computes 0/0 and sets the value to NaN, breaking the invariant); and
the value changes only through the capture gesture: `on_mouse_up` and
`on_mouse_moved` never change the state, and a down that does not
claim capture leaves the slider unchanged. -/
theorem slider_invariant_amended :
    Slider.new.inv = true ∧
    (∀ (s : Slider) (mn mx : F), s.inv = true → F.ble mn mx = true →
      (s.with_min_max mn mx).inv = true) ∧
    (∀ (s : Slider) (v : F), F.ble s.min s.max = true → v ≠ F.nan →
      (s.set_value v).inv = true ∧ (s.with_value v).inv = true) ∧
    (∀ s : Slider, s.on_mouse_up = s) ∧
    (∀ (s : Slider) (x y : F), s.on_mouse_moved x y = s) ∧
    (∀ (s : Slider) (x y : F), (s.on_mouse_down x y).2 = false →
      (s.on_mouse_down x y).1 = s) ∧
    (∀ (s : Slider) (x y : F) (a b mn mx : ℚ),
      s.inv = true → s.min = F.fin mn → s.max = F.fin mx →
      s.slide_bounds.min_x = F.fin a → s.slide_bounds.max_x = F.fin b → a < b →
      ((s.on_mouse_down x y).1).inv = true) ∧
    (∀ (s : Slider) (x y : F) (a b mn mx : ℚ),
      mn ≤ mx → s.min = F.fin mn → s.max = F.fin mx →
      s.slide_bounds.min_x = F.fin a → s.slide_bounds.max_x = F.fin b → a < b →
      x ≠ F.nan → (s.on_mouse_dragged x y).inv = true) := by
  refine ⟨?_, ?_, ?_, fun s => rfl, fun s x y => rfl, ?_, ?_, ?_⟩
  · unfold Slider.inv
    show (F.ble (F.fin 0) (F.fin (1 / 2)) && F.ble (F.fin (1 / 2)) (F.fin 1)) = true
    rw [F.fin_ble, F.fin_ble]
    norm_num
  · intro s mn mx hinv hble
    have hvnan : s.value ≠ F.nan := by
      unfold Slider.inv at hinv
      rw [Bool.and_eq_true] at hinv
      exact F.ble_true_right_ne_nan _ _ hinv.1
    have h := F.clamp_mem s.value mn mx hble hvnan
    unfold Slider.inv Slider.with_min_max
    rw [Bool.and_eq_true]
    exact h
  · intro s v hble hvnan
    have h := F.clamp_mem v s.min s.max hble hvnan
    constructor
    · unfold Slider.inv Slider.set_value
      rw [Bool.and_eq_true]
      exact h
    · unfold Slider.inv Slider.with_value Slider.set_value
      rw [Bool.and_eq_true]
      exact h
  · intro s x y h
    unfold Slider.on_mouse_down at h ⊢
    by_cases hc : s.slide_bounds.contains x y = true
    · rw [if_pos hc] at h
      exact absurd h (by simp)
    · rw [if_neg hc]
  · intro s x y a b mn mx hinv hmin hmax ha hb hab
    exact on_mouse_down_inv s x y a b mn mx hinv hmin hmax ha hb hab
  · intro s x y a b mn mx hmnx hmin hmax ha hb hab hx
    exact on_mouse_dragged_inv s x y a b mn mx hmnx hmin hmax ha hb hab hx

/-- Witness for the amended C6 theorem at concrete inputs: the
laid-out slider keeps the invariant across a claimed down in the track,
a drag far outside the track, and a programmatic set_value. -/
theorem slider_invariant_amended_witness :
    c6slider.inv = true ∧
    ((c6slider.on_mouse_down (F.fin 50) (F.fin 5)).1).inv = true ∧
    (c6slider.on_mouse_dragged (F.fin 1000) (F.fin 0)).inv = true ∧
    (c6slider.set_value (F.fin 25)).inv = true := by
  have hinv : c6slider.inv = true := by
    unfold Slider.inv
    show (F.ble (F.fin 0) (F.fin 0) && F.ble (F.fin 0) (F.fin 10)) = true
    rw [F.fin_ble, F.fin_ble]
    norm_num
  refine ⟨hinv, ?_, ?_, ?_⟩
  · exact (slider_invariant_amended.2.2.2.2.2.2.1) c6slider (F.fin 50) (F.fin 5)
      0 100 0 10 hinv rfl rfl rfl rfl (by norm_num)
  · exact (slider_invariant_amended.2.2.2.2.2.2.2) c6slider (F.fin 1000) (F.fin 0)
      0 100 0 10 (by norm_num) rfl rfl rfl rfl (by norm_num) (by simp)
  · exact ((slider_invariant_amended.2.2.1) c6slider (F.fin 25)
      (by rw [show c6slider.min = F.fin 0 from rfl, show c6slider.max = F.fin 10 from rfl,
              F.fin_ble, decide_eq_true_eq]; norm_num)
      (by simp)).1
